import Mathlib

/-
Verification development for the kodi_panel display driver
(kodi_panel_display.py).  The Python source is shallowly embedded:
Python strings are lists of code points (`List Char`), machine I/O
(JSON-RPC posts, HTTP fetches, file probes) is supplied through
explicit oracle structures, and the module-level mutable globals are
threaded as explicit state records.  Float arithmetic appearing in the
source (the character-count estimate in truncate_text, progress
clamping in progress_bar) is modelled by exact rational/natural
arithmetic; none of the verified statements hinge on binary-float
rounding at a boundary.
-/

set_option autoImplicit false

namespace KodiPanel

/- ------------------------------------------------------------------
   Text truncation (truncate_text, source lines 260-306).

   A font is identified by a numeric id (Python compares the PIL font
   objects by object identity); an ambient table `CharW` gives the
   pixel advance of each character under each font, and the rendered
   width of a string is the sum of its character advances, which is
   the additive model of pil_draw.textsize.
   ------------------------------------------------------------------ -/

/-- Width table: font id, then character, to pixel advance. -/
abbrev CharW := Nat → Char → Nat

/-- Rendered width of a string: sum of per-character advances
(additive model of pil_draw.textsize). -/
def textWidth (cw : CharW) (fid : Nat) (s : List Char) : Nat :=
  (s.map (cw fid)).sum

/-- One entry of the `last_trunc` cache, mirroring the dict built at
source lines 299-304. -/
structure TruncEntry where
  str : List Char
  short_str : List Char
  truncating : Bool
  font : Nat
deriving DecidableEq

/-- The cache scan of source lines 269-274: first entry whose `str`
and `font` both match wins.  The draw position is not part of the
key. -/
def truncLookup : List TruncEntry → List Char → Nat → Option TruncEntry
  | [], _, _ => none
  | e :: rest, s, f =>
    if e.str = s ∧ e.font = f then some e else truncLookup rest s f

/-- The ellipsis character appended by truncate_text (U+2026). -/
def ellChar : Char := Char.ofNat 8230

/-- Possible outcomes of one truncate_text call: a string is drawn, a
ZeroDivisionError is raised (`avg_char = len(new_text) / t_width` with
a zero-width rendering), or the shrink loop never terminates (the
while loop at line 288 spins on the empty string when the draw
position already lies beyond the permitted width). -/
inductive TruncOutcome
  | drawn (s : List Char)
  | zeroDiv
  | hang
deriving DecidableEq

/-- The naive shrink loop of source lines 288-291, written with
explicit fuel so that it is structural (the wrapper always supplies
fuel equal to the string length, which suffices: each pass drops one
trailing character).  Returns the final string together with the
`truncating` flag; `none` models the loop never terminating. -/
def shrinkFuel (cw : CharW) (fid : Nat) (x0 avail : Int)
    (fuel : Nat) (s : List Char) : Option (List Char × Bool) :=
  if x0 + (textWidth cw fid s : Int) ≤ avail then some (s, false)
  else
    match fuel, s with
    | _, [] => none
    | 0, _ :: _ => none
    | fuel + 1, a :: t =>
      match shrinkFuel cw fid x0 avail fuel ((a :: t).dropLast) with
      | some (r, _) => some (r, true)
      | none => none

/-- The shrink loop at its intended fuel. -/
def shrink (cw : CharW) (fid : Nat) (x0 avail : Int) (s : List Char) :
    Option (List Char × Bool) :=
  shrinkFuel cw fid x0 avail s.length s

/-- Model of truncate_text (source lines 260-306).  `text` is the
string to render, `x0` the x coordinate of the draw position, `cache`
the module-level `last_trunc` list.  The estimate
`num_chars = int((avail_width + 20) / avg_char)` with
`avg_char = len(new_text) / t_width` equals
floor(frame_width * t_width / len) and is modelled by exact natural
division.  The returned cache is the updated `last_trunc`. -/
def truncate_text (cw : CharW) (frameW : Nat) (x0 : Int)
    (text : List Char) (fid : Nat) (cache : List TruncEntry) :
    TruncOutcome × List TruncEntry :=
  let new_text := text.take 59
  match truncLookup cache new_text fid with
  | some e => (.drawn e.short_str, cache)
  | none =>
    let t_width := textWidth cw fid new_text
    if t_width = 0 then (.zeroDiv, cache)
    else
      let num_chars := frameW * t_width / new_text.length
      let cut := new_text.take num_chars
      match shrink cw fid x0 ((frameW : Int) - 20) cut with
      | none => (.hang, cache)
      | some (r, trunc) =>
        let disp := r ++ (if trunc then [ellChar] else [])
        (.drawn disp,
         ((⟨text.take 59, disp, trunc, fid⟩ : TruncEntry) :: cache).take 9)

/- ------------------------------------------------------------------
   progress_bar (source lines 313-326).
   ------------------------------------------------------------------ -/

/-- A pil_draw.rectangle argument (x0, y0, x1, y1). -/
structure Rect where
  x0 : ℚ
  y0 : ℚ
  x1 : ℚ
  y1 : ℚ
deriving DecidableEq

/-- progress_bar: returns the background rectangle and the filled
rectangle it draws, in draw order. -/
def progress_bar (x y w h progress : ℚ) (vertical : Bool) : Rect × Rect :=
  let bg : Rect := ⟨x, y, x + w, y + h⟩
  let progress := if progress ≤ 0 then 1 / 100 else progress
  let progress := if 1 < progress then 1 else progress
  if vertical then
    let dh := h * progress
    (bg, ⟨x, y + h - dh, x + w, y + h⟩)
  else
    let dw := w * progress
    (bg, ⟨x, y, x + dw, y + h⟩)

/-- The clamp performed by the two ifs of progress_bar, as a single
function (specification-side restatement used in the theorem). -/
def clampQ (p : ℚ) : ℚ :=
  if p ≤ 0 then 1 / 100 else if 1 < p then 1 else p

/-- Containment of rectangle `inner` in rectangle `outer`. -/
def rectWithin (outer inner : Rect) : Prop :=
  outer.x0 ≤ inner.x0 ∧ inner.x1 ≤ outer.x1 ∧
  outer.y0 ≤ inner.y0 ∧ inner.y1 ≤ outer.y1

/- ------------------------------------------------------------------
   ADisplay next (source lines 127-138).  The enum is populated from
   the configured layout-name list; its members are in declaration
   order, so a member is an index below the number of configured
   variants and `next` maps a member to the following index, wrapping
   to 0 past the end.
   ------------------------------------------------------------------ -/

/-- ADisplay.next: members.index(self) + 1, wrapping to 0 at the
length of the member list. -/
def ADisplay.next {n : Nat} (i : Fin n) : Fin n :=
  if h : i.val + 1 < n then ⟨i.val + 1, h⟩
  else ⟨0, Nat.lt_of_le_of_lt (Nat.zero_le i.val) i.isLt⟩

/- ------------------------------------------------------------------
   Artwork resolution (get_artwork, source lines 342-486).

   Pillow images are modelled by their provenance: opened from a file
   path, decoded from fetched bytes (identified by a numeric id), or
   produced by an in-place thumbnail resize.  Network and filesystem
   effects go through the `ArtNet` oracle, and every performed I/O
   action is recorded in an event list so that the no-I/O claims are
   expressible.
   ------------------------------------------------------------------ -/

/-- A Pillow image, tracked by provenance so that instance identity
and resizing are observable. -/
inductive Img
  | file (path : String)
  | bytes (b : Nat)
  | thumb (i : Img) (sz : Nat)
deriving DecidableEq

/-- An I/O action performed by get_artwork. -/
inductive NetEvent
  | rpcPrepare (path : String)
  | rpcFileDetails (path : String)
  | httpGet (url : String)
  | openFile (path : String)
deriving DecidableEq

/-- Python exceptions that can escape get_artwork: a
requests ConnectionError from a post/get, or the UnboundLocalError
raised at `requests.get(image_url)` when no branch assigned
`image_url`. -/
inductive PyErr
  | connectionError
  | unboundLocal
deriving DecidableEq

/-- Result of a get_artwork call: the returned image (possibly None),
or a raised exception. -/
inductive ArtResult
  | ok (img : Option Img)
  | err (e : PyErr)
deriving DecidableEq

/-- The module globals read and written by get_artwork
(_last_image_path and _last_image_time). -/
structure ArtState where
  lastImagePath : Option String
  lastImageTime : Option String
deriving DecidableEq

/-- Configuration constants consumed by get_artwork. -/
structure Cfg where
  baseUrl : String
  defaultThumb : String
  defaultAirplay : String
  kodiThumb : String
  localKodi : Bool

/-- Oracle for the player RPC endpoint, the HTTP fetches and the
filesystem.  `Except.error ()` on a request models a raised
ConnectionError.  `prepare` yields the servable path of a
Files.PrepareDownload reply when the reply carries
result.details.path; `fileDetails` yields the lastmodified field of a
Files.GetFileDetails reply when present; `httpGet` yields status code
and a byte-content id; `decodeOk` tells whether Image.open succeeds
on those bytes; `isfile` models os.path.isfile. -/
structure ArtNet where
  prepare : String → Except Unit (Option String)
  fileDetails : String → Except Unit (Option String)
  httpGet : String → Except Unit (Nat × Nat)
  decodeOk : Nat → Bool
  isfile : String → Bool

/-- str.startswith, computed on code points. -/
def strStartsWith (s pre : String) : Bool :=
  pre.data.isPrefixOf s.data

/-- The _airtunes_re regular expression
`^special://temp/(airtunes_album_thumb.(png|jpg))`:
re.match anchors at the start only, and group(1) is the file name. -/
def airtunesGroup1 (s : String) : Option String :=
  if strStartsWith s "special://temp/airtunes_album_thumb.png" then
    some "airtunes_album_thumb.png"
  else if strStartsWith s "special://temp/airtunes_album_thumb.jpg" then
    some "airtunes_album_thumb.jpg"
  else none

/-- The function-local variables of get_artwork, together with the
threaded globals and the recorded I/O events.  `image_url = none`
models the local being unbound. -/
structure ArtLocals where
  image_set : Bool
  resize_needed : Bool
  cover_img : Option Img
  image_url : Option String
  prev : Option Img
  st : ArtState
  events : List NetEvent

/-- First resolution branch of get_artwork (source lines 351-392):
library/remote cover art.  An `Except.error` carries the locals at
the point the exception was raised. -/
def art_branch1 (cfg : Cfg) (net : ArtNet) (cover : String)
    (l : ArtLocals) : Except (PyErr × ArtLocals) ArtLocals :=
  if cover ≠ "" ∧ cover ≠ "DefaultAlbumCover.png" ∧ airtunesGroup1 cover = none then
    if some cover = l.st.lastImagePath ∧ l.prev.isSome then
      -- fall through and just return prev_image
      .ok { l with image_set := true }
    else
      let l1 := { l with st := { l.st with lastImagePath := some cover } }
      let urlStep : Except (PyErr × ArtLocals) ArtLocals :=
        if strStartsWith cover "http://" then
          .ok { l1 with image_url := some cover }
        else
          let l2 := { l1 with events := l1.events ++ [.rpcPrepare cover] }
          match net.prepare cover with
          | .error _ => .error (.connectionError, l2)
          | .ok (some p) =>
            .ok { l2 with image_url := some (cfg.baseUrl ++ "/" ++ p) }
          | .ok none => .ok l2      -- reply lacks details.path: image_url stays unbound
      match urlStep with
      | .error e => .error e
      | .ok l3 =>
        match l3.image_url with
        | none => .error (.unboundLocal, l3)  -- requests.get(image_url), image_url unbound
        | some u =>
          let l4 := { l3 with events := l3.events ++ [.httpGet u] }
          match net.httpGet u with
          | .error _ => .error (.connectionError, l4)
          | .ok (status, b) =>
            if status = 200 then
              if net.decodeOk b then
                .ok { l4 with cover_img := some (.bytes b),
                              image_set := true, resize_needed := true }
              else
                .ok { l4 with events := l4.events ++ [.openFile cfg.defaultThumb],
                              cover_img := some (.file cfg.defaultThumb),
                              prev := some (.file cfg.defaultThumb),
                              image_set := true, resize_needed := false }
            else .ok l4   -- non-200: image_set stays false
  else .ok l

/-- Truthiness of the optional lastmodified string (Python: a missing
field or an empty string is falsy). -/
def timeTruthy : Option String → Bool
  | none => false
  | some t => !t.data.isEmpty

/-- Second resolution branch of get_artwork (source lines 401-453):
AirPlay cover art reached over the network. -/
def art_branch2 (cfg : Cfg) (net : ArtNet) (cover : String)
    (l : ArtLocals) : Except (PyErr × ArtLocals) ArtLocals :=
  if ¬l.image_set ∧ (airtunesGroup1 cover).isSome ∧ ¬cfg.localKodi then
    let l1 := { l with events := l.events ++ [.rpcFileDetails cover] }
    match net.fileDetails cover with
    | .error _ => .error (.connectionError, l1)
    | .ok t? =>
      if timeTruthy t? ∧ t? ≠ l1.st.lastImageTime then
        let l2 := { l1 with events := l1.events ++ [.rpcPrepare cover] }
        match net.prepare cover with
        | .error _ => .error (.connectionError, l2)
        | .ok p? =>
          let l3 := match p? with
                    | some p => { l2 with image_url := some (cfg.baseUrl ++ "/" ++ p) }
                    | none => l2
          match l3.image_url with
          | none => .error (.unboundLocal, l3)
          | some u =>
            let l4 := { l3 with events := l3.events ++ [.httpGet u] }
            match net.httpGet u with
            | .error _ => .error (.connectionError, l4)
            | .ok (status, b) =>
              if status = 200 then
                if net.decodeOk b then
                  .ok { l4 with cover_img := some (.bytes b),
                                image_set := true, resize_needed := true,
                                st := { l4.st with lastImageTime := t? } }
                else
                  .ok { l4 with events := l4.events ++ [.openFile cfg.defaultThumb],
                                cover_img := some (.file cfg.defaultThumb),
                                prev := some (.file cfg.defaultThumb),
                                image_set := true, resize_needed := false }
              else .ok l4
      else
        -- unchanged (or unusable) timestamp: keep the previous image
        .ok { l1 with image_set := true }
  else .ok l

/-- Remainder of get_artwork (source lines 459-486): the fallback
branch for anything still unset, the aspect-preserving resize, and
the returned image. -/
def art_finish (cfg : Cfg) (net : ArtNet) (cover : String)
    (thumb_size : Nat) (l : ArtLocals) : ArtResult × ArtState × List NetEvent :=
  let l1 :=
    if ¬l.image_set then
      let lA := { l with resize_needed := false }
      let lB :=
        match airtunesGroup1 cover with
        | some g =>
          let airplay_thumb := "/storage/.kodi/temp/" ++ g
          if net.isfile airplay_thumb then
            { lA with st := { lA.st with lastImagePath := some airplay_thumb },
                      resize_needed := true }
          else
            { lA with st := { lA.st with lastImagePath := some cfg.defaultAirplay } }
        | none =>
          { lA with st := { lA.st with lastImagePath := some cfg.defaultThumb } }
      let path := lB.st.lastImagePath.getD ""
      { lB with events := lB.events ++ [.openFile path],
                cover_img := some (.file path), prev := some (.file path),
                image_set := true }
    else l
  let l2 :=
    if l1.image_set ∧ l1.resize_needed then
      match l1.cover_img with
      | some c => { l1 with cover_img := some (.thumb c thumb_size),
                            prev := some (.thumb c thumb_size) }
      | none => l1   -- resize_needed is only ever set with cover assigned
    else l1
  if l2.image_set then (.ok l2.prev, l2.st, l2.events)
  else (.ok none, l2.st, l2.events)

/-- Model of get_artwork (source lines 342-486): resolves cover art
for the given snapshot cover locator, starting from the previous
image and the threaded globals.  Returns the call result, the final
globals and the I/O events performed. -/
def get_artwork (cfg : Cfg) (net : ArtNet) (cover : String)
    (prev_image : Option Img) (thumb_size : Nat) (st : ArtState) :
    ArtResult × ArtState × List NetEvent :=
  let init : ArtLocals :=
    { image_set := false, resize_needed := false, cover_img := none,
      image_url := none, prev := prev_image, st := st, events := [] }
  match art_branch1 cfg net cover init with
  | .error (e, l) => (.err e, l.st, l.events)
  | .ok l =>
    match art_branch2 cfg net cover l with
    | .error (e, l2) => (.err e, l2.st, l2.events)
    | .ok l2 => art_finish cfg net cover thumb_size l2

/- ------------------------------------------------------------------
   Polling loop / update_display (source lines 683-805), audio_screens
   (source lines 557-659) and the render lock (source line 212).

   The model threads the module globals touched by update_display.
   Frame-buffer drawing, the backlight calls, the idle status screen
   text and the truncation-cache writes performed while drawing text
   fields are pure output and do not feed back into these globals, so
   they are not tracked here.  Wall-clock comparisons against
   screen_offtime are abstracted into the boolean `timeExpired` of the
   per-cycle environment.

   update_display declares
   global _last_image_path, _last_thumb, screen_press, screen_active,
   screen_offtime and audio_dmode, but NOT _last_image_time; the two
   assignments `_last_image_time = None` (source lines 714 and 758)
   therefore bind a function-local variable and leave the module
   global untouched.  The model reproduces that scoping behaviour.
   ------------------------------------------------------------------ -/

/-- The type field of a Player.GetActivePlayers entry. -/
inductive PlayerType
  | audio
  | video
  | picture
  | other
deriving DecidableEq

/-- Per-cycle environment of one update_display call: the clock
comparison, the outcome of each JSON-RPC request it makes (error
models a raised ConnectionError), the artwork oracle, and for each
audio layout variant whether it has a thumb region and at what
size.  `trackCover` is the MusicPlayer.Cover label of the
XBMC.GetInfoLabels reply (the only label that feeds back into the
threaded globals). -/
structure PollEnv where
  timeExpired : Bool
  activePlayers : Except Unit (List PlayerType)
  trackCover : Except Unit String
  statusLabels : Except Unit Unit
  progProps : Except Unit Unit
  artNet : ArtNet
  hasThumb : Nat → Bool
  thumbSize : Nat → Nat

/-- Outcome of one update_display call: normal return, an escaped
exception, or blocking forever in lock.acquire() because the lock is
already held. -/
inductive UDResult
  | ok
  | raised
  | blocked
deriving DecidableEq

/-- The module globals threaded through update_display, for a
configuration with `n` audio layout variants. -/
structure PState (n : Nat) where
  lockHeld : Bool
  screen_press : Bool
  screen_active : Bool
  audio_dmode : Fin n
  art : ArtState
  lastThumb : Option Img
deriving DecidableEq

/-- The state-relevant part of audio_screens (source lines 557-576):
when the active layout has a thumb region, _last_thumb is assigned
the get_artwork result; otherwise _last_thumb is set to None.  If
get_artwork raises, the assignment to _last_thumb never happens.
Returns (call result, new _last_image_path/_last_image_time globals,
new _last_thumb). -/
def audio_screens {n : Nat} (cfg : Cfg) (env : PollEnv) (mode : Fin n)
    (cover : String) (art : ArtState) (lastThumb : Option Img) :
    ArtResult × ArtState × Option Img :=
  if env.hasThumb mode.val then
    match get_artwork cfg env.artNet cover lastThumb (env.thumbSize mode.val) art with
    | (.ok img, art2, _) => (.ok img, art2, img)
    | (.err e, art2, _) => (.err e, art2, lastThumb)
  else
    (.ok none, art, none)

/-- Model of update_display (source lines 683-805).  The body runs
under the render lock; an exception raised by any of the JSON-RPC
requests (or inside get_artwork) escapes before lock.release() is
reached, so on the `raised` outcome the returned state still has
`lockHeld = true`. -/
def update_display {n : Nat} (cfg : Cfg) (env : PollEnv) (s : PState n) :
    UDResult × PState n :=
  if s.lockHeld then (.blocked, s)
  else
    let s1 : PState n := { s with lockHeld := true }
    let s2 := if s1.screen_active ∧ env.timeExpired then
                { s1 with screen_active := false } else s1
    match env.activePlayers with
    | .error _ => (.raised, s2)
    | .ok players =>
      let isAudio := match players with
                     | [] => false
                     | t :: _ => t = PlayerType.audio
      if isAudio then
        -- audio is playing (source lines 747-801)
        let s3 :=
          if s2.screen_press then
            { s2 with screen_press := false,
                      audio_dmode := ADisplay.next s2.audio_dmode,
                      -- _last_image_path and _last_thumb are globals here,
                      -- _last_image_time is a local: the global survives
                      art := { lastImagePath := none,
                               lastImageTime := s2.art.lastImageTime },
                      lastThumb := none }
          else s2
        match env.trackCover with
        | .error _ => (.raised, s3)
        | .ok cover =>
          match env.progProps with
          | .error _ => (.raised, s3)
          | .ok _ =>
            match audio_screens cfg env s3.audio_dmode cover s3.art s3.lastThumb with
            | (.err _, art2, thumb2) =>
              (.raised, { s3 with art := art2, lastThumb := thumb2 })
            | (.ok _, art2, thumb2) =>
              (.ok, { s3 with art := art2, lastThumb := thumb2, lockHeld := false })
      else
        -- nothing, or non-audio, is playing (source lines 709-745)
        let s3 := { s2 with art := { lastImagePath := none,
                                     -- same missing-global scoping as above
                                     lastImageTime := s2.art.lastImageTime },
                            lastThumb := none }
        let s4 := if s3.screen_press then
                    { s3 with screen_press := false, screen_active := true }
                  else s3
        if s4.screen_active then
          match env.statusLabels with
          | .error _ => (.raised, s4)
          | .ok _ => (.ok, { s4 with lockHeld := false })
        else
          (.ok, { s4 with lockHeld := false })

/- ------------------------------------------------------------------
   Concrete fixtures used by the closed counterexample and bug
   theorems.
   ------------------------------------------------------------------ -/

/-- A width table giving every character advance 1 under every font. -/
def cwOne : CharW := fun _ _ => 1

/-- A width table giving every character advance 10 under every font. -/
def cwTen : CharW := fun _ _ => 10

/-- A concrete configuration. -/
def cfg0 : Cfg :=
  { baseUrl := "http://kodihost:8080", defaultThumb := "images/default_thumb.png",
    defaultAirplay := "images/default_airplay.png",
    kodiThumb := "images/kodi_thumb.png", localKodi := false }

/-- A benign network oracle: every request succeeds, every fetch
returns status 200 with decodable bytes, no local files exist. -/
def net0 : ArtNet :=
  { prepare := fun _ => .ok (some "vfs/1234"),
    fileDetails := fun _ => .ok none,
    httpGet := fun _ => .ok (200, 7),
    decodeOk := fun _ => true,
    isfile := fun _ => false }

/-- A network oracle whose Files.PrepareDownload reply carries no
result.details.path. -/
def netNoPath : ArtNet :=
  { net0 with prepare := fun _ => .ok none }

/-- A network oracle whose image fetches come back with HTTP 404. -/
def net404 : ArtNet :=
  { net0 with httpGet := fun _ => .ok (404, 7) }

/-- AirPlay oracle: the lastmodified query reports a fresh timestamp
and the subsequent prepare/fetch/decode succeeds. -/
def netAirplayNew : ArtNet :=
  { net0 with fileDetails := fun _ => .ok (some "2020-11-02 10:00:00") }

/-- Environment for a cycle in which the Player.GetActivePlayers post
raises a ConnectionError. -/
def envFail : PollEnv :=
  { timeExpired := false, activePlayers := .error (), trackCover := .ok "",
    statusLabels := .ok (), progProps := .ok (), artNet := net0,
    hasThumb := fun _ => false, thumbSize := fun _ => 0 }

/-- Environment for a cycle in which Kodi reports nothing playing. -/
def envIdle : PollEnv := { envFail with activePlayers := .ok [] }

/-- Environment for a cycle in which audio is playing; the active
layout has no thumb region, so get_artwork is not reached. -/
def envAudio : PollEnv := { envFail with activePlayers := .ok [.audio] }

/-- Quiescent global state: lock free, no press, screen inactive,
first of two layout variants, artwork state populated from an earlier
pass. -/
def sQuiet : PState 2 :=
  { lockHeld := false, screen_press := false, screen_active := false,
    audio_dmode := ⟨0, by omega⟩,
    art := { lastImagePath := some "image://old%2fcover.jpg",
             lastImageTime := some "2020-11-01 09:00:00" },
    lastThumb := some (.file "cached.png") }

/-- Same state with a pending screen press. -/
def sPress : PState 2 := { sQuiet with screen_press := true }

/- ==================================================================
   Theorems
   ================================================================== -/

/-- Claim C1: a connectivity failure inside update_display is claimed
to leave the render lock free so that later calls never block.  In
the code, the exception raised by the Player.GetActivePlayers post
escapes between lock.acquire() and lock.release(): the call raises
with the lock still held, and the next update_display call, made
after the outer ping loop reconnects, blocks forever acquiring the
lock. -/
theorem update_display_lock_leak :
    (update_display cfg0 envFail sQuiet).1 = .raised ∧
    (update_display cfg0 envFail sQuiet).2.lockHeld = true ∧
    (update_display cfg0 envIdle (update_display cfg0 envFail sQuiet).2).1 = .blocked := by
  decide

/-- Claim C3: update_display is claimed to reset the artwork locator
and the last-modified token whenever nothing (or non-audio) is
playing, and whenever a screen press during audio changes the display
mode.  The code resets _last_image_path and _last_thumb, but its
`_last_image_time = None` assignments bind a function local (no
`global _last_image_time` declaration), so the module-level
last-modified token keeps its old value in both situations. -/
theorem update_display_stale_image_time :
    ((update_display cfg0 envIdle sQuiet).1 = .ok ∧
     (update_display cfg0 envIdle sQuiet).2.art.lastImagePath = none ∧
     (update_display cfg0 envIdle sQuiet).2.lastThumb = none ∧
     (update_display cfg0 envIdle sQuiet).2.art.lastImageTime =
       some "2020-11-01 09:00:00") ∧
    ((update_display cfg0 envAudio sPress).1 = .ok ∧
     (update_display cfg0 envAudio sPress).2.audio_dmode = ⟨1, by omega⟩ ∧
     (update_display cfg0 envAudio sPress).2.art.lastImagePath = none ∧
     (update_display cfg0 envAudio sPress).2.lastThumb = none ∧
     (update_display cfg0 envAudio sPress).2.art.lastImageTime =
       some "2020-11-01 09:00:00") := by
  decide

/-- Claim C2, counterexample: on a cache miss the empty string does
not complete without error; `avg_char = len(new_text) / t_width`
divides by the zero rendered width and raises ZeroDivisionError. -/
theorem truncate_text_empty_raises :
    (truncate_text cwOne 320 0 [] 0 []).1 = .zeroDiv := by
  decide

/-- Claim C4, counterexample: with every advance 10 px, a frame 40 px
wide (permitted extent 20 px) and the 5-character text "aaaaa", the
loop stops at the 2-character prefix (width 20), and only then is the
ellipsis appended: the drawn result has rendered width 30, exceeding
the maximum extent the claim bounds it by. -/
theorem truncate_text_ellipsis_overflow :
    (truncate_text cwTen 40 0 (List.replicate 5 'a') 0 []).1 =
      .drawn (List.replicate 2 'a' ++ [ellChar]) ∧
    ¬((0 : Int) + (textWidth cwTen 0 (List.replicate 2 'a' ++ [ellChar]) : Int) ≤
        (40 : Int) - 20) := by
  decide

/-- Claim C5, counterexample: a 60-character text of total width 60
fits in the 80 px extent of a 100 px frame, yet truncate_text first
cuts every input to its first 59 characters, so the rendered string
is not the input text. -/
theorem truncate_text_sixty_char_cut :
    (0 : Int) + (textWidth cwOne 0 (List.replicate 60 'a') : Int) ≤ (100 : Int) - 20 ∧
    (truncate_text cwOne 100 0 (List.replicate 60 'a') 0 []).1 =
      .drawn (List.replicate 59 'a') ∧
    List.replicate 60 'a' ≠ List.replicate 59 'a' := by
  decide

/-- Claim C6, counterexample: for a library locator whose
Files.PrepareDownload reply carries no result.details.path, the code
reaches `requests.get(image_url)` with `image_url` never assigned and
raises UnboundLocalError instead of returning the default
thumbnail. -/
theorem get_artwork_missing_path_raises :
    (get_artwork cfg0 netNoPath "image://a%2fb.jpg" none 200
        ⟨none, none⟩).1 = .err .unboundLocal := by
  decide

/-- With positive per-character advances, a string is at least as
wide as it is long. -/
theorem length_le_textWidth (cw : CharW) (fid : Nat)
    (hpos : ∀ c, 1 ≤ cw fid c) :
    ∀ s : List Char, s.length ≤ textWidth cw fid s := by
  intro s
  induction s with
  | nil => simp [textWidth]
  | cons a t ih =>
    have ha := hpos a
    simp only [textWidth, List.map_cons, List.sum_cons, List.length_cons] at ih ⊢
    omega

/-- Soundness of the shrink loop: any returned string is a prefix of
the input, its width fits the permitted extent, and a true
`truncating` flag means at least one character was dropped. -/
theorem shrinkFuel_sound (cw : CharW) (fid : Nat) (x0 avail : Int) :
    ∀ (fuel : Nat) (s r : List Char) (b : Bool),
      shrinkFuel cw fid x0 avail fuel s = some (r, b) →
      r <+: s ∧ x0 + (textWidth cw fid r : Int) ≤ avail ∧
        (b = true → r.length < s.length) := by
  intro fuel
  induction fuel with
  | zero =>
    intro s r b hmain
    by_cases hfits : x0 + (textWidth cw fid s : Int) ≤ avail
    · rw [shrinkFuel.eq_def, if_pos hfits] at hmain
      cases hmain
      exact ⟨List.prefix_refl _, hfits, by simp⟩
    · rw [shrinkFuel.eq_def, if_neg hfits] at hmain
      split at hmain <;> simp_all
  | succ fuel ih =>
    intro s r b hmain
    by_cases hfits : x0 + (textWidth cw fid s : Int) ≤ avail
    · rw [shrinkFuel.eq_def, if_pos hfits] at hmain
      cases hmain
      exact ⟨List.prefix_refl _, hfits, by simp⟩
    · rw [shrinkFuel.eq_def, if_neg hfits] at hmain
      cases s with
      | nil => simp_all
      | cons a t =>
        have hmain2 : (match shrinkFuel cw fid x0 avail fuel ((a :: t).dropLast) with
            | some (p, _) => some (p, true)
            | none => none) = some (r, b) := hmain
        cases hrec : shrinkFuel cw fid x0 avail fuel ((a :: t).dropLast) with
        | none => rw [hrec] at hmain2; simp at hmain2
        | some rb =>
          obtain ⟨r0, b0⟩ := rb
          rw [hrec] at hmain2
          simp only [Option.some.injEq, Prod.mk.injEq] at hmain2
          obtain ⟨hr, hb⟩ := hmain2
          subst hr
          subst hb
          obtain ⟨hpre, hwid, _⟩ := ih _ _ _ hrec
          refine ⟨hpre.trans ( List.dropLast_prefix _), hwid, fun _ => ?_⟩
          have h1 := hpre.length_le
          have h2 := List.length_dropLast (a :: t)
          simp only [List.length_cons] at h2 ⊢
          omega

/-- Core computation of truncate_text on a cache miss for a string
that already fits: with positive advances, a non-negative draw
position, and the (59-limited) text fitting the permitted extent, the
character-count estimate does not cut the text and the shrink loop
exits immediately, so the 59-limited text itself is drawn, no
ellipsis is appended, and the cached entry records no truncation. -/
theorem truncate_text_fit_eq (cw : CharW) (frameW : Nat) (x0 : Int)
    (text : List Char) (fid : Nat) (cache : List TruncEntry)
    (hmiss : truncLookup cache (text.take 59) fid = none)
    (hpos : ∀ c, 1 ≤ cw fid c)
    (hne : text ≠ [])
    (hx : 0 ≤ x0)
    (hfit : x0 + (textWidth cw fid (text.take 59) : Int) ≤ (frameW : Int) - 20) :
    truncate_text cw frameW x0 text fid cache =
      (.drawn (text.take 59),
       ((⟨text.take 59, text.take 59, false, fid⟩ : TruncEntry) :: cache).take 9) := by
  have hntne : text.take 59 ≠ [] := by
    rw [Ne, List.take_eq_nil_iff]
    simp [hne]
  have hlen : 0 < (text.take 59).length := List.length_pos.mpr hntne
  have hlw : (text.take 59).length ≤ textWidth cw fid (text.take 59) :=
    length_le_textWidth cw fid hpos _
  have hw0 : textWidth cw fid (text.take 59) ≠ 0 := by omega
  have hW20 : textWidth cw fid (text.take 59) + 20 ≤ frameW := by
    have : (textWidth cw fid (text.take 59) : Int) + 20 ≤ (frameW : Int) := by omega
    exact_mod_cast this
  have hnum : (text.take 59).length ≤
      frameW * textWidth cw fid (text.take 59) / (text.take 59).length := by
    rw [Nat.le_div_iff_mul_le hlen]
    calc (text.take 59).length * (text.take 59).length
        ≤ textWidth cw fid (text.take 59) * textWidth cw fid (text.take 59) :=
          Nat.mul_le_mul hlw hlw
      _ ≤ frameW * textWidth cw fid (text.take 59) :=
          Nat.mul_le_mul_right _ (by omega)
  have hcut : (text.take 59).take
      (frameW * textWidth cw fid (text.take 59) / (text.take 59).length) =
      text.take 59 := List.take_of_length_le hnum
  simp only [truncate_text, hmiss]
  rw [if_neg hw0, hcut, shrink, shrinkFuel.eq_def, if_pos hfit]
  simp

/-- Claim C2, amended: for any non-empty string whose 59-limited
prefix already fits the permitted extent, on a cache miss, with a
font of positive character advances and a non-negative draw
position, truncate_text completes without error and draws that
string with no ellipsis appended (the cached entry records
truncating = false).  The unamended claim fails on the empty string,
which raises ZeroDivisionError instead. -/
theorem truncate_text_fitting_nonempty (cw : CharW) (frameW : Nat) (x0 : Int)
    (text : List Char) (fid : Nat) (cache : List TruncEntry)
    (hmiss : truncLookup cache (text.take 59) fid = none)
    (hpos : ∀ c, 1 ≤ cw fid c)
    (hne : text ≠ [])
    (hx : 0 ≤ x0)
    (hfit : x0 + (textWidth cw fid (text.take 59) : Int) ≤ (frameW : Int) - 20) :
    (truncate_text cw frameW x0 text fid cache).1 = .drawn (text.take 59) ∧
    (truncate_text cw frameW x0 text fid cache).2 =
      ((⟨text.take 59, text.take 59, false, fid⟩ : TruncEntry) :: cache).take 9 := by
  rw [truncate_text_fit_eq cw frameW x0 text fid cache hmiss hpos hne hx hfit]
  exact ⟨rfl, rfl⟩

/-- Witness for the amended claim C2 at a concrete input. -/
theorem truncate_text_fitting_nonempty_check :
    (∀ c, 1 ≤ cwOne 0 c) ∧
    (truncate_text cwOne 320 5 ['a', 'b', 'c'] 0 []).1 = .drawn ['a', 'b', 'c'] :=
  ⟨fun _ => Nat.le_refl 1,
   (truncate_text_fitting_nonempty cwOne 320 5 ['a', 'b', 'c'] 0 [] rfl
      (fun _ => Nat.le_refl 1) (by decide) (by decide) (by decide)).1⟩

/-- Claim C5, amended: for any non-empty text of at most 59
characters whose rendered width fits the permitted extent, on a cache
miss, with positive character advances and a non-negative draw
position, truncate_text renders the input text unchanged with no
ellipsis.  The unamended claim fails for fitting texts longer than 59
characters, which are first cut to their 59-character prefix. -/
theorem truncate_text_fits_unchanged (cw : CharW) (frameW : Nat) (x0 : Int)
    (text : List Char) (fid : Nat) (cache : List TruncEntry)
    (hmiss : truncLookup cache (text.take 59) fid = none)
    (hpos : ∀ c, 1 ≤ cw fid c)
    (hne : text ≠ [])
    (hx : 0 ≤ x0)
    (hlen : text.length ≤ 59)
    (hfit : x0 + (textWidth cw fid text : Int) ≤ (frameW : Int) - 20) :
    (truncate_text cw frameW x0 text fid cache).1 = .drawn text := by
  have htake : text.take 59 = text := List.take_of_length_le hlen
  rw [truncate_text_fit_eq cw frameW x0 text fid cache hmiss hpos hne hx
      (by rw [htake]; exact hfit)]
  rw [htake]

/-- Witness for the amended claim C5 at a concrete input. -/
theorem truncate_text_fits_unchanged_check :
    (∀ c, 1 ≤ cwOne 0 c) ∧
    (truncate_text cwOne 320 0 ['k', 'o', 'd', 'i'] 0 []).1 =
      .drawn ['k', 'o', 'd', 'i'] :=
  ⟨fun _ => Nat.le_refl 1,
   truncate_text_fits_unchanged cwOne 320 0 ['k', 'o', 'd', 'i'] 0 [] rfl
     (fun _ => Nat.le_refl 1) (by decide) (by decide) (by decide) (by decide)⟩

/-- Claim C4, amended: whenever truncate_text shortens the text (the
freshly cached entry has truncating = true), the drawn and cached
result is a strict prefix of the first 59 characters of the text
followed by exactly one ellipsis character, and the rendered width of
the prefix WITHOUT the ellipsis fits the permitted extent.  The
unamended claim fails because the ellipsis is appended after the
width check, so the full result may overhang by the width of the
ellipsis. -/
theorem truncate_text_shortening_shape (cw : CharW) (frameW : Nat) (x0 : Int)
    (text : List Char) (fid : Nat) (cache : List TruncEntry)
    (d : List Char) (e : TruncEntry) (rest : List TruncEntry)
    (hmiss : truncLookup cache (text.take 59) fid = none)
    (hres : truncate_text cw frameW x0 text fid cache = (.drawn d, e :: rest))
    (ht : e.truncating = true) :
    ∃ p, d = p ++ [ellChar] ∧ e.short_str = d ∧
      p <+: text.take 59 ∧ p ≠ text.take 59 ∧
      x0 + (textWidth cw fid p : Int) ≤ (frameW : Int) - 20 := by
  simp only [truncate_text, hmiss] at hres
  by_cases hw0 : textWidth cw fid (text.take 59) = 0
  · rw [if_pos hw0] at hres
    exact absurd hres (by simp)
  · rw [if_neg hw0] at hres
    cases hsh : shrink cw fid x0 ((frameW : Int) - 20)
        ((text.take 59).take
          (frameW * textWidth cw fid (text.take 59) / (text.take 59).length)) with
    | none =>
      rw [hsh] at hres
      exact absurd hres (by simp)
    | some rb =>
      obtain ⟨r, trunc⟩ := rb
      simp only [hsh] at hres
      simp only [Prod.mk.injEq, TruncOutcome.drawn.injEq] at hres
      obtain ⟨hd, hcc⟩ := hres
      rw [show ∀ (en : TruncEntry) (c : List TruncEntry),
            List.take 9 (en :: c) = en :: c.take 8 from fun _ _ => rfl] at hcc
      simp only [List.cons.injEq] at hcc
      obtain ⟨he, _⟩ := hcc
      subst he
      replace ht : trunc = true := ht
      subst ht
      simp only [if_pos] at hd
      obtain ⟨hpre, hwid, hshort⟩ :=
        shrinkFuel_sound cw fid x0 ((frameW : Int) - 20) _ _ _ _ hsh
      have hcutpre : ((text.take 59).take
          (frameW * textWidth cw fid (text.take 59) / (text.take 59).length)) <+:
          text.take 59 := List.take_prefix _ _
      refine ⟨r, hd.symm, by simpa using hd, hpre.trans hcutpre, ?_, hwid⟩
      intro hcontra
      have h1 := hshort rfl
      have h2 := hcutpre.length_le
      rw [hcontra] at h1
      omega

/-- Witness for the amended claim C4 at a concrete input. -/
theorem truncate_text_shortening_shape_check :
    ∃ p, (List.replicate 2 'a' ++ [ellChar]) = p ++ [ellChar] ∧
      (⟨List.replicate 5 'a', List.replicate 2 'a' ++ [ellChar], true,
        0⟩ : TruncEntry).short_str = List.replicate 2 'a' ++ [ellChar] ∧
      p <+: (List.replicate 5 'a').take 59 ∧
      p ≠ (List.replicate 5 'a').take 59 ∧
      (0 : Int) + (textWidth cwTen 0 p : Int) ≤ (40 : Int) - 20 :=
  truncate_text_shortening_shape cwTen 40 0 (List.replicate 5 'a') 0 []
    (List.replicate 2 'a' ++ [ellChar])
    ⟨List.replicate 5 'a', List.replicate 2 'a' ++ [ellChar], true, 0⟩ []
    rfl (by decide) rfl

/-- Claim C10: the truncation cache is keyed only by the pair
(first 59 characters, font).  After a completed first call, a second
call with the same text and font but ANY other draw position returns
the first call result unchanged, without re-measuring and without
touching the cache. -/
theorem truncate_cache_ignores_position (cw : CharW) (frameW : Nat)
    (x1 x2 : Int) (text : List Char) (fid : Nat) (d : List Char)
    (hfirst : (truncate_text cw frameW x1 text fid []).1 = .drawn d) :
    truncate_text cw frameW x2 text fid
        ((truncate_text cw frameW x1 text fid []).2) =
      (.drawn d, (truncate_text cw frameW x1 text fid []).2) := by
  rcases hc : truncate_text cw frameW x1 text fid [] with ⟨o, c2⟩
  rw [hc] at hfirst
  replace hfirst : o = TruncOutcome.drawn d := hfirst
  subst hfirst
  simp only [truncate_text, truncLookup] at hc
  by_cases hw0 : textWidth cw fid (text.take 59) = 0
  · rw [if_pos hw0] at hc
    exact absurd hc (by simp)
  · rw [if_neg hw0] at hc
    cases hsh : shrink cw fid x1 ((frameW : Int) - 20)
        ((text.take 59).take
          (frameW * textWidth cw fid (text.take 59) / (text.take 59).length)) with
    | none =>
      rw [hsh] at hc
      exact absurd hc (by simp)
    | some rb =>
      obtain ⟨r, trunc⟩ := rb
      simp only [hsh] at hc
      simp only [Prod.mk.injEq, TruncOutcome.drawn.injEq] at hc
      obtain ⟨hd, hcc⟩ := hc
      subst hcc
      subst hd
      simp [truncate_text, truncLookup]

/-- Witness for claim C10: the second call is made at x = 299, where
the two-character string would no longer fit fresh (299 + 2 exceeds
the 300 px extent), yet the cached result is returned untouched. -/
theorem truncate_cache_ignores_position_check :
    truncate_text cwOne 320 299 ['h', 'i'] 0
        ((truncate_text cwOne 320 0 ['h', 'i'] 0 []).2) =
      (.drawn ['h', 'i'], (truncate_text cwOne 320 0 ['h', 'i'] 0 []).2) :=
  truncate_cache_ignores_position cwOne 320 0 299 ['h', 'i'] 0 ['h', 'i']
    (by decide)

/-- progress_bar draws the background rectangle and a filled
rectangle computed from the clamped progress value. -/
theorem progress_bar_eq (x y w h p : ℚ) (v : Bool) :
    progress_bar x y w h p v =
      (⟨x, y, x + w, y + h⟩,
       if v then (⟨x, y + h - h * clampQ p, x + w, y + h⟩ : Rect)
       else ⟨x, y, x + w * clampQ p, y + h⟩) := by
  by_cases h1 : p ≤ 0
  · cases v <;> norm_num [progress_bar, clampQ, h1]
  · by_cases h2 : 1 < p
    · cases v <;> simp [progress_bar, clampQ, h1, h2]
    · cases v <;> simp [progress_bar, clampQ, h1, h2]

/-- Claim C8: progress_bar clamps its progress argument before
drawing: inputs at most 0 become the minimal fill fraction 1/100,
inputs above 1 become 1, inputs in (0, 1] are used as they are, and
(for non-negative bar dimensions) the filled rectangle stays inside
the background rectangle. -/
theorem progress_bar_clamped (x y w h p : ℚ) (v : Bool)
    (hw : 0 ≤ w) (hh : 0 ≤ h) :
    progress_bar x y w h p v =
      (⟨x, y, x + w, y + h⟩,
       if v then (⟨x, y + h - h * clampQ p, x + w, y + h⟩ : Rect)
       else ⟨x, y, x + w * clampQ p, y + h⟩) ∧
    (p ≤ 0 → clampQ p = 1 / 100) ∧
    (1 < p → clampQ p = 1) ∧
    (0 < p → p ≤ 1 → clampQ p = p) ∧
    0 < clampQ p ∧ clampQ p ≤ 1 ∧
    rectWithin (progress_bar x y w h p v).1 (progress_bar x y w h p v).2 := by
  have hcl : 0 < clampQ p ∧ clampQ p ≤ 1 := by
    unfold clampQ
    split_ifs with h1 h2
    · norm_num
    · norm_num
    · constructor <;> linarith
  refine ⟨progress_bar_eq x y w h p v, ?_, ?_, ?_, hcl.1, hcl.2, ?_⟩
  · intro h1
    simp [clampQ, h1]
  · intro h2
    have h1 : ¬p ≤ 0 := by linarith
    simp [clampQ, h1, h2]
  · intro h0 hle
    have h1 : ¬p ≤ 0 := by linarith
    have h2 : ¬1 < p := by linarith
    simp [clampQ, h1, h2]
  · rw [progress_bar_eq]
    have hwc : w * clampQ p ≤ w := by nlinarith [hcl.1, hcl.2]
    have hhc : h * clampQ p ≤ h := by nlinarith [hcl.1, hcl.2]
    cases v <;> simp [rectWithin] <;> linarith

/-- Witness for claim C8 at a concrete input. -/
theorem progress_bar_clamped_check :
    (0 : ℚ) ≤ 100 ∧ (0 : ℚ) ≤ 10 ∧
    rectWithin (progress_bar 0 0 100 10 (1 / 2) false).1
      (progress_bar 0 0 100 10 (1 / 2) false).2 :=
  ⟨by norm_num, by norm_num,
   (progress_bar_clamped 0 0 100 10 (1 / 2) false (by norm_num)
      (by norm_num)).2.2.2.2.2.2⟩

/-- The value of ADisplay next is successor modulo the number of
configured variants. -/
theorem ADisplay.next_val {n : Nat} (i : Fin n) :
    (ADisplay.next i).val = (i.val + 1) % n := by
  unfold ADisplay.next
  split
  · next h => exact (Nat.mod_eq_of_lt h).symm
  · next h =>
    have h2 : i.val + 1 = n := by
      have := i.isLt
      omega
    simp [h2]

/-- Iterating ADisplay next adds the iteration count modulo the
number of configured variants. -/
theorem ADisplay.next_iterate_val {n : Nat} (i : Fin n) (k : Nat) :
    ((ADisplay.next)^[k] i).val = (i.val + k) % n := by
  induction k with
  | zero => simpa using (Nat.mod_eq_of_lt i.isLt).symm
  | succ k ih =>
    rw [Function.iterate_succ_apply', ADisplay.next_val, ih, Nat.mod_add_mod]
    have harith : i.val + k + 1 = i.val + (k + 1) := by omega
    rw [harith]

/-- Claim C9: from any starting variant, the first n applications of
the display-mode next operation are pairwise distinct (each variant
is visited exactly once), the n-th application returns to the start,
and next of the last variant is the first variant. -/
theorem adisplay_next_cycles {n : Nat} (i : Fin n) (k l : Nat)
    (hk : k < n) (hl : l < n) :
    (ADisplay.next)^[n] i = i ∧
    ((ADisplay.next)^[k] i = (ADisplay.next)^[l] i → k = l) ∧
    ADisplay.next (⟨n - 1, Nat.sub_lt i.pos Nat.one_pos⟩ : Fin n) =
      ⟨0, i.pos⟩ := by
  refine ⟨?_, ?_, ?_⟩
  · apply Fin.ext
    rw [ADisplay.next_iterate_val, Nat.add_mod_right]
    exact Nat.mod_eq_of_lt i.isLt
  · intro hiter
    have hv := congrArg Fin.val hiter
    rw [ADisplay.next_iterate_val, ADisplay.next_iterate_val] at hv
    have hmod : k ≡ l [MOD n] :=
      Nat.ModEq.add_left_cancel (Nat.ModEq.refl i.val) hv
    have h3 : k % n = l % n := hmod
    rwa [Nat.mod_eq_of_lt hk, Nat.mod_eq_of_lt hl] at h3
  · apply Fin.ext
    rw [ADisplay.next_val]
    have h4 : n - 1 + 1 = n := by
      have := i.pos
      omega
    simp [h4]

/-- Witness for claim C9 with three configured variants. -/
theorem adisplay_next_cycles_check :
    (1 : Nat) < 3 ∧ (2 : Nat) < 3 ∧
    ((ADisplay.next)^[3] (1 : Fin 3) = 1 ∧
     ((ADisplay.next)^[1] (1 : Fin 3) = (ADisplay.next)^[2] (1 : Fin 3) →
       1 = 2) ∧
     ADisplay.next (⟨2, by decide⟩ : Fin 3) = ⟨0, by decide⟩) :=
  ⟨by decide, by decide,
   adisplay_next_cycles (1 : Fin 3) 1 2 (by decide) (by decide)⟩

/-- Claim C7, amended: for a snapshot whose cover locator is a
non-empty, non-default, non-AirPlay path equal to the cached locator,
with a previous image present, get_artwork returns that cached image
instance unchanged, leaves the cached globals unchanged and performs
no I/O at all (no fetch, no decode, no resize, no file open).  The
unamended claim fails for AirPlay locators, whose branch has no
unchanged-locator shortcut. -/
theorem get_artwork_unchanged_locator_hit (cfg : Cfg) (net : ArtNet)
    (cover : String) (img : Img) (sz : Nat) (st : ArtState)
    (h1 : cover ≠ "") (h2 : cover ≠ "DefaultAlbumCover.png")
    (h3 : airtunesGroup1 cover = none)
    (h4 : st.lastImagePath = some cover) :
    get_artwork cfg net cover (some img) sz st = (.ok (some img), st, []) := by
  simp only [get_artwork, art_branch1]
  rw [if_pos ⟨h1, h2, h3⟩, if_pos ⟨h4.symm, rfl⟩]
  simp [art_branch2, art_finish, h3]

/-- Witness for the amended claim C7 at a concrete input. -/
theorem get_artwork_unchanged_locator_hit_check :
    get_artwork cfg0 net0 "image://a%2fb.jpg" (some (.file "cached.png")) 200
        ⟨some "image://a%2fb.jpg", none⟩ =
      (.ok (some (.file "cached.png")),
       (⟨some "image://a%2fb.jpg", none⟩ : ArtState), []) :=
  get_artwork_unchanged_locator_hit cfg0 net0 "image://a%2fb.jpg"
    (.file "cached.png") 200 ⟨some "image://a%2fb.jpg", none⟩
    (by decide) (by decide) rfl rfl

/-- Claim C6, amended: for a library locator resolved through the
download-preparation RPC, a fetch that comes back with a non-200
status, or bytes that fail to decode, falls back to the default
thumbnail without raising, and the render pass continues.  The
unamended claim fails for a preparation reply without a servable path
(UnboundLocalError) and for an unreachable URL (the ConnectionError
propagates to the outer reconnection loop). -/
theorem get_artwork_decode_fallback (cfg : Cfg) (net : ArtNet)
    (cover p : String) (status b sz : Nat) (prev : Option Img) (st : ArtState)
    (h1 : cover ≠ "") (h2 : cover ≠ "DefaultAlbumCover.png")
    (h3 : airtunesGroup1 cover = none)
    (h4 : st.lastImagePath ≠ some cover)
    (h5 : strStartsWith cover "http://" = false)
    (h6 : net.prepare cover = .ok (some p))
    (h7 : net.httpGet (cfg.baseUrl ++ "/" ++ p) = .ok (status, b))
    (h8 : status ≠ 200 ∨ net.decodeOk b = false) :
    (get_artwork cfg net cover prev sz st).1 =
      .ok (some (.file cfg.defaultThumb)) := by
  have hmiss : ¬(some cover = st.lastImagePath ∧ prev.isSome = true) := by
    intro hcontra
    exact h4 hcontra.1.symm
  simp only [get_artwork, art_branch1]
  rw [if_pos ⟨h1, h2, h3⟩, if_neg hmiss]
  simp only [h5, h6, h7, Bool.false_eq_true, if_false]
  by_cases hst : status = 200
  · rcases h8 with h8 | h8
    · exact absurd hst h8
    · rw [if_pos hst]
      simp [h8, art_branch2, art_finish, h3]
  · rw [if_neg hst]
    simp [art_branch2, art_finish, h3]

/-- Witness for the amended claim C6 at a concrete input (HTTP 404 on
the image fetch). -/
theorem get_artwork_decode_fallback_check :
    (get_artwork cfg0 net404 "image://a%2fb.jpg" none 200 ⟨none, none⟩).1 =
      .ok (some (.file "images/default_thumb.png")) :=
  get_artwork_decode_fallback cfg0 net404 "image://a%2fb.jpg" "vfs/1234"
    404 7 200 none ⟨none, none⟩ (by decide) (by decide) rfl (by decide)
    rfl rfl rfl (Or.inl (by decide))

/-- Claim C7, counterexample: a snapshot whose AirPlay cover locator
equals the cached locator, with a previous image present, is claimed
to return the cached instance with no fetch; the unchanged-locator
shortcut only exists in the library branch, so the AirPlay branch
queries the file timestamp, re-fetches, decodes and resizes, and
returns a different image instance. -/
theorem get_artwork_airplay_refetch :
    (get_artwork cfg0 netAirplayNew "special://temp/airtunes_album_thumb.png"
        (some (.file "cached.png")) 200
        ⟨some "special://temp/airtunes_album_thumb.png",
         some "2020-11-01 09:00:00"⟩).1 =
      .ok (some (.thumb (.bytes 7) 200)) ∧
    ArtResult.ok (some (Img.thumb (.bytes 7) 200)) ≠
      ArtResult.ok (some (Img.file "cached.png")) ∧
    (get_artwork cfg0 netAirplayNew "special://temp/airtunes_album_thumb.png"
        (some (.file "cached.png")) 200
        ⟨some "special://temp/airtunes_album_thumb.png",
         some "2020-11-01 09:00:00"⟩).2.2 ≠ [] := by
  decide

end KodiPanel
